import Mathlib

/-!
Verification of the legend-saga RabbitMQ client library.

The definitions below are a shallow embedding of the Rust sources under
src/legend-saga/src: JSON values, AMQP header tables, the retry engine
(nack.rs, fibo.rs), the saga ack path (saga.rs), the event dispatcher
(events_consume.rs), the handler registry (emitter.rs) and the audit
topology builder (consumers.rs, start.rs).  Machine integers are modelled
as Int with explicit wrapping where the source casts, JSON maps as
association lists with first-match lookup.
-/

namespace LegendSaga

/-- JSON values, the shallow embedding of serde_json::Value. -/
inductive J where
  | null : J
  | bool : Bool → J
  | num : Int → J
  | str : String → J
  | arr : List J → J
  | obj : List (String × J) → J
deriving Repr

/-- AMQP field values as pattern-matched by the source: lapin AMQPValue.
The source only distinguishes LongString and LongLongInt; every other
lapin variant behaves uniformly and is collapsed into `other`. -/
inductive AMQPValue where
  | longString : String → AMQPValue
  | longLongInt : Int → AMQPValue
  | other : AMQPValue
deriving DecidableEq, Repr

/-- An AMQP header table (lapin FieldTable over a BTreeMap), modelled as an
association list in iteration order. -/
def FieldTable : Type := List (String × AMQPValue)

instance : DecidableEq FieldTable := by
  unfold FieldTable
  infer_instance

instance : Repr FieldTable := by
  unfold FieldTable
  infer_instance

/-- First-match lookup in an association list (the map view of a table). -/
def alistGet {κ α : Type} [DecidableEq κ] : List (κ × α) → κ → Option α
  | [], _ => none
  | kv :: rest, k => if kv.1 = k then some kv.2 else alistGet rest k

/-- Map insert on an association list: replace the binding when the key is
present, append otherwise (lookup-equivalent to BTreeMap/HashMap insert). -/
def alistInsert {κ α : Type} [DecidableEq κ] (l : List (κ × α)) (k : κ) (v : α) :
    List (κ × α) :=
  if l.any (fun kv => kv.1 = k) then
    l.map (fun kv => if kv.1 = k then (k, v) else kv)
  else
    l ++ [(k, v)]

/-- Map remove on an association list (BTreeMap remove). -/
def alistRemove {κ α : Type} [DecidableEq κ] : List (κ × α) → κ → List (κ × α)
  | [], _ => []
  | kv :: rest, k => if kv.1 = k then alistRemove rest k else kv :: alistRemove rest k

/-- Last-match lookup: the binding that survives when a list of entries is
inserted left to right into a map. -/
def alistGetLast {κ α : Type} [DecidableEq κ] : List (κ × α) → κ → Option α
  | [], _ => none
  | kv :: rest, k =>
    match alistGetLast rest k with
    | some v => some v
    | none => if kv.1 = k then some kv.2 else none

/-! ## Errors (connection.rs RabbitMQError) -/

/-- RabbitMQError from connection.rs; payload-free variants for errors whose
payload the claims never inspect. -/
inductive RabbitMQError where
  | connectionError : RabbitMQError
  | serializationError : RabbitMQError
  | channelClosed : RabbitMQError
  | backoffError : String → RabbitMQError
  | timeoutError : RabbitMQError
  | invalidHeader : RabbitMQError
  | invalidEventKey : String → RabbitMQError
  | invalidPayload : String → RabbitMQError
  | valueIsNotSet : String → RabbitMQError
deriving DecidableEq, Repr

/-! ## Fibonacci (fibo.rs) -/

/-- The loop of fibonacci in fibo.rs: one step per remaining index,
carrying the pair (a, b). -/
def fibLoop : Nat → Nat × Nat → Nat × Nat
  | 0, ab => ab
  | i + 1, ab => fibLoop i (ab.2, ab.1 + ab.2)

/-- fibonacci from fibo.rs: base cases 0 and 1, then the iterative loop
running from 2 to n inclusive. -/
def fibonacci (n : Nat) : Nat :=
  match n with
  | 0 => 0
  | 1 => 1
  | m + 2 => (fibLoop (m + 1) (0, 1)).2

/-! ## Delivery envelope (my_delivery.rs) -/

/-- MyDelivery from my_delivery.rs: the normalized view of an inbound
message. -/
structure MyDelivery where
  deliveryTag : Nat
  exchange : String
  appId : Option String
  messageId : Option String
  data : List Nat
  headers : FieldTable
deriving DecidableEq, Repr

/-! ## Broker entity names (queue_consumer_props.rs) -/

def Queue.REPLY_TO_SAGA : String := "reply_to_saga"

def Queue.COMMENCE_SAGA : String := "commence_saga"

def Queue.AUDIT_RECEIVED_COMMANDS : String := "audit_received_commands"

def Queue.AUDIT_PROCESSED_COMMANDS : String := "audit_processed_commands"

def Queue.AUDIT_DEAD_LETTER_COMMANDS : String := "audit_dead_letter_commands"

def Exchange.REQUEUE : String := "requeue_exchange"

def Exchange.COMMANDS : String := "commands_exchange"

def Exchange.MATCHING : String := "matching_exchange"

def Exchange.MATCHING_REQUEUE : String := "matching_requeue_exchange"

def Exchange.AUDIT : String := "audit_exchange"

/-! ## Retry engine (nack.rs) -/

/-- Wrapping cast from i64 to i32, as performed by the source when it
returns counters (count as i32, occurrence as i32). -/
def i32wrap (n : Int) : Int :=
  (n + 2 ^ 31) % 2 ^ 32 - 2 ^ 31

/-- Wrapping cast from i64 to usize (64-bit), as in `occurrence as usize`. -/
def usizeOfInt (n : Int) : Nat :=
  (n % 2 ^ 64).toNat

/-- The Nack helper of nack.rs (the channel is not modelled; the delivery
and the consuming queue name are its observable state). -/
structure Nack where
  delivery : MyDelivery
  queueName : String
deriving DecidableEq, Repr

/-- The x-retry-count header read: the value when it is a LongLongInt,
0 when absent or of any other type. -/
def readRetryCount (h : FieldTable) : Int :=
  (match alistGet h "x-retry-count" with
   | some (AMQPValue.longLongInt n) => some n
   | _ => none).getD 0

/-- calculate_retry_count from nack.rs: the header read plus one. -/
def calculateRetryCount (nack : Nack) : Int :=
  readRetryCount nack.delivery.headers + 1

/-- The x-occurrence header read in with_fibonacci_strategy: the value when
it is a LongLongInt, 0 when absent or of any other type. -/
def readOccurrence (h : FieldTable) : Int :=
  (match alistGet h "x-occurrence" with
   | some (AMQPValue.longLongInt n) => some n
   | _ => none).getD 0

/-- The subset of AMQP BasicProperties set by the source on a republish. -/
structure BasicProps where
  expiration : Option String := none
  propHeaders : Option FieldTable := none
  appId : Option String := none
  messageId : Option String := none
  deliveryMode : Option Nat := none
  contentType : Option String := none
deriving DecidableEq, Repr

/-- A basic_publish call as observed on the broker. -/
structure PublishedMessage where
  exchange : String
  routingKey : String
  body : List Nat
  props : BasicProps
deriving DecidableEq, Repr

/-- publish_requeue from nack.rs: choose the requeue destination from the
source exchange of the delivery, then publish with expiration, headers,
app-id, message-id and delivery-mode 2. -/
def Nack.publishRequeue (nack : Nack) (delayMs : Nat) (headers : FieldTable) :
    PublishedMessage :=
  let sel : String × String × FieldTable :=
    if nack.delivery.exchange = Exchange.MATCHING then
      let newMap := alistRemove headers "all-micro"
      let newMap := alistInsert newMap "micro" (AMQPValue.longString nack.queueName)
      (Exchange.MATCHING_REQUEUE, "", newMap)
    else
      (Exchange.REQUEUE, nack.queueName ++ "_routing_key", headers)
  { exchange := sel.1
    routingKey := sel.2.1
    body := nack.delivery.data
    props :=
      { expiration := some (toString delayMs)
        propHeaders := some sel.2.2
        appId := some (nack.delivery.appId.getD "")
        messageId := some (nack.delivery.messageId.getD "")
        deliveryMode := some 2 } }

/-- The outcome of Nack::with_delay: the returned pair (count as i32,
delay), plus the republish when one happened.  The original delivery is
always nacked (multiple=false, requeue=false) first. -/
structure NackDelayResult where
  retryCount : Int
  delayMs : Nat
  published : Option PublishedMessage
deriving DecidableEq, Repr

/-- with_delay from nack.rs. -/
def Nack.withDelay (nack : Nack) (delayMs : Nat) (maxRetries : Int) :
    NackDelayResult :=
  let count := calculateRetryCount nack
  if count > maxRetries then
    { retryCount := i32wrap count, delayMs := delayMs, published := none }
  else
    let headers := alistInsert nack.delivery.headers "x-retry-count"
      (AMQPValue.longLongInt count)
    { retryCount := i32wrap count, delayMs := delayMs,
      published := some (nack.publishRequeue delayMs headers) }

/-- The outcome of Nack::with_fibonacci_strategy: the returned triple
(count as i32, delay, occurrence as i32), plus the republish when one
happened. -/
structure NackFiboResult where
  retryCount : Int
  delayMs : Nat
  occurrence : Int
  published : Option PublishedMessage
deriving DecidableEq, Repr

/-- The occurrence advance of with_fibonacci_strategy: reset to 1 at
max_occurrence to avoid a large delay on the next nack, increment
otherwise. -/
def nextOccurrence (maxOccurrence occurrence0 : Int) : Int :=
  if occurrence0 ≥ maxOccurrence then 1 else occurrence0 + 1

/-- with_fibonacci_strategy from nack.rs: read and advance the occurrence,
take fib(occurrence) seconds as the delay, then follow the with_delay
republish logic with both counters updated in the headers. -/
def Nack.withFibonacciStrategy (nack : Nack) (maxOccurrence maxRetries : Int) :
    NackFiboResult :=
  let count := calculateRetryCount nack
  let occurrence0 := readOccurrence nack.delivery.headers
  let occurrence := nextOccurrence maxOccurrence occurrence0
  let delayMs := 1000 * fibonacci (usizeOfInt occurrence)
  if count > maxRetries then
    { retryCount := i32wrap count, delayMs := delayMs,
      occurrence := i32wrap occurrence, published := none }
  else
    let headers := alistInsert nack.delivery.headers "x-retry-count"
      (AMQPValue.longLongInt count)
    let headers := alistInsert headers "x-occurrence"
      (AMQPValue.longLongInt occurrence)
    { retryCount := i32wrap count, delayMs := delayMs,
      occurrence := i32wrap occurrence,
      published := some (nack.publishRequeue delayMs headers) }

/-- The internal occurrence value after n consecutive fibonacci nacks of
the same message, starting from a delivery without an x-occurrence
header. -/
def occAt (M : Int) : Nat → Int
  | 0 => 0
  | n + 1 => nextOccurrence M (occAt M n)

/-- The delivery seen at the n-th consecutive fibonacci nack of the same
message: each republish is redelivered with the republished headers (the
requeue queue dead-letters it back with headers intact). -/
def fiboChainDelivery (d0 : MyDelivery) (q : String) (M R : Int) :
    Nat → Option MyDelivery
  | 0 => some d0
  | n + 1 =>
    match fiboChainDelivery d0 q M R n with
    | none => none
    | some d =>
      match (Nack.withFibonacciStrategy { delivery := d, queueName := q } M R).published with
      | none => none
      | some m => some { d with headers := m.props.propHeaders.getD [] }

/-- The delay returned at the n-th consecutive fibonacci nack. -/
def fiboDelayAt (d0 : MyDelivery) (q : String) (M R : Int) (n : Nat) : Option Nat :=
  (fiboChainDelivery d0 q M R n).map
    (fun d => (Nack.withFibonacciStrategy { delivery := d, queueName := q } M R).delayMs)

/-! ## Saga step consumption (saga.rs) -/

/-- AvailableMicroservices from connection.rs. -/
inductive AvailableMicroservices where
  | testImage
  | testMint
  | auth
  | blockchain
  | missions
  | rankings
  | sendEmail
  | showcase
  | social
  | storage
  | auditEda
  | billing
deriving DecidableEq, Repr

/-- StepCommand from saga.rs. -/
inductive StepCommand where
  | createImage
  | updateToken
  | mintImage
  | createUser
  | resourcePurchasedDeductCoins
  | rankingsRewardCoins
  | resourcePurchasedSavePurchasedResource
  | updateIslandRoomTemplate
  | randomizeIslandPvImage
  | updateUserImage
  | createSocialUser
  | uploadFile
deriving DecidableEq, Repr

/-- Status from saga.rs. -/
inductive Status where
  | success
  | failure
  | sent
  | pending
deriving DecidableEq, Repr

/-- SagaStep from saga.rs; the two payloads are JSON objects
(HashMap of String to Value). -/
structure SagaStep where
  microservice : AvailableMicroservices
  command : StepCommand
  status : Status
  sagaId : Int
  payload : List (String × J)
  previousPayload : List (String × J)
  isCurrentStep : Bool
deriving Repr

/-- The publish performed by RabbitMQClient::send for the saga reply: to
the default exchange with the queue name as routing key, persistent,
content-type JSON, body the serialized step. -/
structure SagaSend where
  exchange : String
  routingKey : String
  step : SagaStep
  deliveryMode : Nat
  contentType : String
deriving Repr

/-- The metadata-transfer condition of saga.rs ack:
`key.len() > 2 && key.starts_with("__")`; a string starts with a pattern
iff the characters of the pattern are a prefix of its characters. -/
def isMetaKey (k : String) : Bool :=
  decide (2 < k.length) && List.isPrefixOf "__".data k.data

/-- MicroserviceConsumeChannel::ack from saga.rs: set status to success,
build the next payload from the double-underscore keys of previousPayload
followed by all entries of payload_for_next_step (which must be a JSON
object), send the new envelope to reply_to_saga, then ack the delivery. -/
def sagaStepAck (step : SagaStep) (payloadForNextStep : J) :
    Except RabbitMQError SagaSend :=
  let step1 := { step with status := Status.success }
  let nextPayload := step1.previousPayload.foldl
    (fun acc kv => if isMetaKey kv.1 then alistInsert acc kv.1 kv.2 else acc) []
  match payloadForNextStep with
  | J.obj m =>
    let nextPayload := m.foldl (fun acc kv => alistInsert acc kv.1 kv.2) nextPayload
    let step2 := { step1 with payload := nextPayload }
    Except.ok
      { exchange := ""
        routingKey := Queue.REPLY_TO_SAGA
        step := step2
        deliveryMode := 2
        contentType := "application/json" }
  | _ => Except.error (RabbitMQError.invalidPayload "Expected an object")

/-! ## Events (events.rs) -/

/-- MicroserviceEvent from events.rs. -/
inductive MicroserviceEvent where
  | testImage
  | testMint
  | auditReceived
  | auditProcessed
  | auditDeadLetter
  | auditPublished
  | authDeletedUser
  | authLogoutUser
  | authNewUser
  | authBlockedUser
  | legendMissionsNewMissionCreated
  | legendMissionsOngoingMission
  | legendMissionsMissionFinished
  | legendMissionsSendEmailCryptoMissionCompleted
  | legendMissionsSendEmailCodeExchangeMissionCompleted
  | legendMissionsSendEmailNftMissionCompleted
  | legendRankingsRankingsFinished
  | legendShowcaseProductVirtualDeleted
  | legendShowcaseUpdateAllowedMissionSubscriptionIds
  | legendShowcaseUpdateAllowedRankingSubscriptionIds
  | socialBlockChat
  | socialNewUser
  | socialUnblockChat
  | socialUpdatedUser
  | legendRankingsNewRankingCreated
  | legendRankingsIntermediateReward
  | legendRankingsParticipationReward
  | billingPaymentCreated
  | billingPaymentSucceeded
  | billingPaymentFailed
  | billingPaymentRefunded
  | billingSubscriptionCreated
  | billingSubscriptionUpdated
  | billingSubscriptionRenewed
  | billingSubscriptionCanceled
  | billingSubscriptionExpired
  | legendEventsNewEventCreated
  | legendEventsEventStarted
  | legendEventsEventEnded
  | legendEventsPlayerRegistered
  | legendEventsPlayerJoinedWaitlist
  | legendEventsScoreSubmitted
  | legendEventsEventsFinished
  | legendEventsIntermediateReward
  | legendEventsParticipationReward
deriving DecidableEq, Repr

/-- The strum serialization of each event (AsRefStr, EnumString). -/
def MicroserviceEvent.toTag : MicroserviceEvent → String
  | .testImage => "test.image"
  | .testMint => "test.mint"
  | .auditReceived => "audit.received"
  | .auditProcessed => "audit.processed"
  | .auditDeadLetter => "audit.dead_letter"
  | .auditPublished => "audit.published"
  | .authDeletedUser => "auth.deleted_user"
  | .authLogoutUser => "auth.logout_user"
  | .authNewUser => "auth.new_user"
  | .authBlockedUser => "auth.blocked_user"
  | .legendMissionsNewMissionCreated => "legend_missions.new_mission_created"
  | .legendMissionsOngoingMission => "legend_missions.ongoing_mission"
  | .legendMissionsMissionFinished => "legend_missions.mission_finished"
  | .legendMissionsSendEmailCryptoMissionCompleted =>
      "legend_missions.send_email_crypto_mission_completed"
  | .legendMissionsSendEmailCodeExchangeMissionCompleted =>
      "legend_missions.send_email_code_exchange_mission_completed"
  | .legendMissionsSendEmailNftMissionCompleted =>
      "legend_missions.send_email_nft_mission_completed"
  | .legendRankingsRankingsFinished => "legend_rankings.rankings_finished"
  | .legendShowcaseProductVirtualDeleted => "legend_showcase.product_virtual_deleted"
  | .legendShowcaseUpdateAllowedMissionSubscriptionIds =>
      "legend_showcase.update_allowed_mission_subscription_ids"
  | .legendShowcaseUpdateAllowedRankingSubscriptionIds =>
      "legend_showcase.update_allowed_ranking_subscription_ids"
  | .socialBlockChat => "social.block_chat"
  | .socialNewUser => "social.new_user"
  | .socialUnblockChat => "social.unblock_chat"
  | .socialUpdatedUser => "social.updated_user"
  | .legendRankingsNewRankingCreated => "legend_rankings.new_ranking_created"
  | .legendRankingsIntermediateReward => "legend_rankings.intermediate_reward"
  | .legendRankingsParticipationReward => "legend_rankings.participation_reward"
  | .billingPaymentCreated => "billing.payment_created"
  | .billingPaymentSucceeded => "billing.payment_succeeded"
  | .billingPaymentFailed => "billing.payment_failed"
  | .billingPaymentRefunded => "billing.payment_refunded"
  | .billingSubscriptionCreated => "billing.subscription_created"
  | .billingSubscriptionUpdated => "billing.subscription_updated"
  | .billingSubscriptionRenewed => "billing.subscription_renewed"
  | .billingSubscriptionCanceled => "billing.subscription_canceled"
  | .billingSubscriptionExpired => "billing.subscription_expired"
  | .legendEventsNewEventCreated => "legend_events.new_event_created"
  | .legendEventsEventStarted => "legend_events.event_started"
  | .legendEventsEventEnded => "legend_events.event_ended"
  | .legendEventsPlayerRegistered => "legend_events.player_registered"
  | .legendEventsPlayerJoinedWaitlist => "legend_events.player_joined_waitlist"
  | .legendEventsScoreSubmitted => "legend_events.score_submitted"
  | .legendEventsEventsFinished => "legend_events.events_finished"
  | .legendEventsIntermediateReward => "legend_events.intermediate_reward"
  | .legendEventsParticipationReward => "legend_events.participation_reward"

/-- All event variants in declaration order (EnumIter). -/
def microserviceEventList : List MicroserviceEvent :=
  [ .testImage, .testMint, .auditReceived, .auditProcessed, .auditDeadLetter,
    .auditPublished, .authDeletedUser, .authLogoutUser, .authNewUser,
    .authBlockedUser, .legendMissionsNewMissionCreated,
    .legendMissionsOngoingMission, .legendMissionsMissionFinished,
    .legendMissionsSendEmailCryptoMissionCompleted,
    .legendMissionsSendEmailCodeExchangeMissionCompleted,
    .legendMissionsSendEmailNftMissionCompleted, .legendRankingsRankingsFinished,
    .legendShowcaseProductVirtualDeleted,
    .legendShowcaseUpdateAllowedMissionSubscriptionIds,
    .legendShowcaseUpdateAllowedRankingSubscriptionIds, .socialBlockChat,
    .socialNewUser, .socialUnblockChat, .socialUpdatedUser,
    .legendRankingsNewRankingCreated, .legendRankingsIntermediateReward,
    .legendRankingsParticipationReward, .billingPaymentCreated,
    .billingPaymentSucceeded, .billingPaymentFailed, .billingPaymentRefunded,
    .billingSubscriptionCreated, .billingSubscriptionUpdated,
    .billingSubscriptionRenewed, .billingSubscriptionCanceled,
    .billingSubscriptionExpired, .legendEventsNewEventCreated,
    .legendEventsEventStarted, .legendEventsEventEnded,
    .legendEventsPlayerRegistered, .legendEventsPlayerJoinedWaitlist,
    .legendEventsScoreSubmitted, .legendEventsEventsFinished,
    .legendEventsIntermediateReward, .legendEventsParticipationReward ]

/-- MicroserviceEvent::from_str (EnumString): the variant whose tag equals
the string exactly, if any. -/
def microserviceEventFromStr (s : String) : Option MicroserviceEvent :=
  microserviceEventList.find? (fun e => e.toTag = s)

/-! ## Event consumption (events_consume.rs) -/

/-- The one header filter of find_event_values: a LongString value parsed
as a known event tag. -/
def headerValueEvent (v : AMQPValue) : Option MicroserviceEvent :=
  match v with
  | AMQPValue.longString s => microserviceEventFromStr s
  | _ => none

/-- The list of event values collected by find_event_values before the
emptiness check: every header entry whose value is a LongString naming a
known event, restricted to the valid-event set (EnumIter). -/
def eventMatches (headers : FieldTable) : List MicroserviceEvent :=
  (headers.filterMap (fun kv => headerValueEvent kv.2)).filter
    (fun e => microserviceEventList.contains e)

/-- find_event_values from events_consume.rs. -/
def findEventValues (headers : FieldTable) :
    Except RabbitMQError (List MicroserviceEvent) :=
  if (eventMatches headers).isEmpty then Except.error RabbitMQError.invalidHeader
  else Except.ok (eventMatches headers)

/-! ## UUID v7 rendering (the uuid crate, an external collaborator) -/

/-- Lowercase hex digit. -/
def hexDigitChar (n : Nat) : Char :=
  if n < 10 then Char.ofNat (48 + n) else Char.ofNat (87 + n % 16)

/-- Fixed-width lowercase hex rendering, most significant digit first. -/
def hexPad (w n : Nat) : String :=
  String.mk ((List.range w).map (fun i => hexDigitChar (n / 16 ^ (w - 1 - i) % 16)))

/-- The hyphenated display of Uuid::now_v7 for a 48-bit timestamp and the
random bits: 8-4-4-4-12 lowercase hex with the version nibble 7. -/
def uuidV7String (ts rand : Nat) : String :=
  hexPad 8 (ts / 2 ^ 16 % 2 ^ 32) ++ "-" ++ hexPad 4 (ts % 2 ^ 16) ++ "-7" ++
    hexPad 3 (rand / 2 ^ 62 % 2 ^ 12) ++ "-" ++
    hexPad 4 (2 ^ 15 + rand / 2 ^ 48 % 2 ^ 14) ++ "-" ++ hexPad 12 (rand % 2 ^ 48)

/-! ## Event dispatch (events_consume.rs handle_event and consume_events) -/

/-- An inbound broker delivery as inspected by handle_event: the lapin
properties the source reads, and the body already JSON-parsed (none means
the bytes are not a JSON value at all). -/
structure DeliveryIn where
  deliveryTag : Nat
  exchange : String
  appId : Option String
  messageId : Option String
  dataJson : Option J
  headers : FieldTable
deriving Repr

/-- The EventHandler context built by handle_event and exposed to the
registered handler. -/
structure EventHandlerCtx where
  payload : List (String × J)
  microservice : String
  processedEvent : String
  publisherMicroservice : String
  eventId : String
deriving Repr

/-- The audit.received payload emitted (fire and forget) by handle_event. -/
structure AuditReceivedPayload where
  publisherMicroservice : String
  receiverMicroservice : String
  receivedEvent : String
  receivedAt : Nat
  queueName : String
  eventId : String
deriving DecidableEq, Repr

/-- The observable outcome of a successful handle_event: the routed event
tag, the handler context, and the audit.received payload. -/
structure HandleEventOut where
  routedEvent : MicroserviceEvent
  ctx : EventHandlerCtx
  audit : AuditReceivedPayload
deriving Repr

/-- handle_event from events_consume.rs.  The parsed body must be a JSON
object; the event tag comes from find_event_values (first element); app-id
defaults to the string unknown; message-id defaults to a freshly generated
UUID v7 (its timestamp and random bits are the ts and rand arguments); an
audit.received payload is emitted with the same correlation data. -/
def handleEvent (selfMicroservice : String) (d : DeliveryIn) (queueName : String)
    (ts rand now : Nat) : Except RabbitMQError HandleEventOut :=
  match d.dataJson with
  | some (J.obj payload) =>
    match findEventValues d.headers with
    | Except.error e => Except.error e
    | Except.ok eventKey =>
      match eventKey with
      | [] => Except.error RabbitMQError.invalidHeader
      | event :: _ =>
        let publisherMicroservice := d.appId.getD "unknown"
        let eventId := d.messageId.getD (uuidV7String ts rand)
        Except.ok
          { routedEvent := event
            ctx :=
              { payload := payload
                microservice := selfMicroservice
                processedEvent := event.toTag
                publisherMicroservice := publisherMicroservice
                eventId := eventId }
            audit :=
              { publisherMicroservice := publisherMicroservice
                receiverMicroservice := selfMicroservice
                receivedEvent := event.toTag
                receivedAt := now
                queueName := queueName
                eventId := eventId } }
  | _ => Except.error RabbitMQError.serializationError

/-- The terminal action the consume_events loop takes on one delivery:
emit to the handler registry on success, nack with default options when
handle_event fails. -/
inductive DispatchOutcome where
  | emitted : HandleEventOut → DispatchOutcome
  | nackedDefault : DispatchOutcome

/-- One iteration of the consume_events loop from events_consume.rs. -/
def consumeEventStep (selfMicroservice : String) (d : DeliveryIn)
    (queueName : String) (ts rand now : Nat) : DispatchOutcome :=
  match handleEvent selfMicroservice d queueName ts rand now with
  | Except.ok out => DispatchOutcome.emitted out
  | Except.error _ => DispatchOutcome.nackedDefault

/-! ## Handler registry (emitter.rs) -/

/-- The registry state of Emitter: the map from event tag to the per-tag
channel (channels are identified by an abstract id). -/
abbrev EmitterState (U : Type) : Type := List (U × Nat)

/-- Emitter::on from emitter.rs: HashMap entry(event).or_insert(tx) — the
channel is stored only when the tag is vacant. -/
def emitterOn {U : Type} [DecidableEq U] (events : EmitterState U) (tag : U)
    (chan : Nat) : EmitterState U :=
  if events.any (fun kv => kv.1 = tag) then events else events ++ [(tag, chan)]

/-- Emitter::emit from emitter.rs: the delivery goes to the channel
registered for the tag, if any. -/
def emitterEmit {U : Type} [DecidableEq U] (events : EmitterState U) (tag : U) :
    Option Nat :=
  alistGet events tag

/-- A sequence of on_with_async_handler registrations applied in order. -/
def registerAll {U : Type} [DecidableEq U] (events : EmitterState U)
    (regs : List (U × Nat)) : EmitterState U :=
  regs.foldl (fun evs r => emitterOn evs r.1 r.2) events

/-! ## Audit topology (consumers.rs create_audit_logging_resources and
start.rs start_consuming_audit) -/

/-- A declaration performed by the topology builder. -/
inductive TopologyDecl where
  | exchangeDecl (name : String) (kind : String) (durable : Bool) : TopologyDecl
  | queueDecl (name : String) (durable : Bool) (args : FieldTable) : TopologyDecl
  | queueBind (queue : String) (exchange : String) (routingKey : String) : TopologyDecl
deriving DecidableEq, Repr

/-- create_audit_logging_resources from consumers.rs, in declaration
order. -/
def createAuditLoggingResources : List TopologyDecl :=
  [ TopologyDecl.exchangeDecl Exchange.AUDIT "direct" true
  , TopologyDecl.queueDecl "audit_received_commands" true []
  , TopologyDecl.queueDecl "audit_processed_commands" true []
  , TopologyDecl.queueDecl "audit_dead_letter_commands" true []
  , TopologyDecl.queueBind "audit_received_commands" Exchange.AUDIT "audit.received"
  , TopologyDecl.queueBind "audit_processed_commands" Exchange.AUDIT "audit.processed"
  , TopologyDecl.queueBind "audit_dead_letter_commands" Exchange.AUDIT "audit.dead_letter"
  ]

/-- The queue names declared by a list of topology declarations. -/
def declaredQueueNames (l : List TopologyDecl) : List String :=
  l.filterMap (fun d =>
    match d with
    | TopologyDecl.queueDecl n _ _ => some n
    | _ => none)

/-- The (queue, routing key) pairs bound by a list of topology
declarations. -/
def declaredBindings (l : List TopologyDecl) : List (String × String × String) :=
  l.filterMap (fun d =>
    match d with
    | TopologyDecl.queueBind q e rk => some (q, e, rk)
    | _ => none)

/-- The audit queues whose consumers start_consuming_audit spawns, in spawn
order. -/
def startConsumingAuditQueues : List String :=
  [Queue.AUDIT_RECEIVED_COMMANDS, Queue.AUDIT_PROCESSED_COMMANDS,
   Queue.AUDIT_DEAD_LETTER_COMMANDS]

/-! ## Concrete inputs used by witnesses and counterexamples -/

def c1cStep : SagaStep :=
  { microservice := AvailableMicroservices.auth
    command := StepCommand.createUser
    status := Status.pending
    sagaId := 7
    payload := []
    previousPayload := [("__", J.num 1), ("__foo", J.num 2)]
    isCurrentStep := true }

def c1wStep : SagaStep :=
  { microservice := AvailableMicroservices.testImage
    command := StepCommand.updateToken
    status := Status.sent
    sagaId := 1
    payload := []
    previousPayload := [("__sagaCtx", J.str "abc"), ("other", J.num 1)]
    isCurrentStep := true }

def c1wNext : List (String × J) :=
  [("tokenId", J.str "t"), ("imageId", J.str "i")]

def c2wD0 : MyDelivery :=
  { deliveryTag := 1, exchange := "commands_exchange", appId := some "auth",
    messageId := some "m-1", data := [104, 105], headers := [] }

def c3wDelivery : MyDelivery :=
  { deliveryTag := 2, exchange := "commands_exchange", appId := some "auth",
    messageId := some "m-2", data := [104],
    headers := [("x-retry-count", AMQPValue.longLongInt 5)] }

def c4wDelivery : MyDelivery :=
  { deliveryTag := 3, exchange := "matching_exchange", appId := some "auth",
    messageId := some "m-3", data := [104],
    headers := [("all-micro", AMQPValue.longString "yes"),
                ("AUTH_LOGOUT_USER", AMQPValue.longString "auth.logout_user")] }

def c5wDelivery : MyDelivery :=
  { deliveryTag := 4, exchange := "commands_exchange", appId := some "auth",
    messageId := some "m-4", data := [106, 107], headers := [] }

def c4wNack : Nack :=
  { delivery := c4wDelivery, queueName := "auth_match_commands" }

def c5wNack : Nack :=
  { delivery := c5wDelivery, queueName := "authq" }

def c7wDelivery : DeliveryIn :=
  { deliveryTag := 5, exchange := "matching_exchange", appId := some "auth",
    messageId := some "m-5",
    dataJson := some (J.obj [("userId", J.str "user1233")]),
    headers := [("event1", AMQPValue.longString "auth.deleted_user"),
                ("event2", AMQPValue.longString "invalid_event"),
                ("event3", AMQPValue.longString "social.new_user")] }

def c8cDelivery : DeliveryIn :=
  { deliveryTag := 6, exchange := "matching_exchange", appId := some "auth",
    messageId := some "",
    dataJson := some (J.obj [("userId", J.str "user1233")]),
    headers := [("AUTH_DELETED_USER", AMQPValue.longString "auth.deleted_user")] }

def c8wDelivery : DeliveryIn :=
  { deliveryTag := 7, exchange := "matching_exchange", appId := none,
    messageId := none,
    dataJson := some (J.obj [("userId", J.str "user1233")]),
    headers := [("AUTH_DELETED_USER", AMQPValue.longString "auth.deleted_user")] }

def c10cStep : SagaStep :=
  { microservice := AvailableMicroservices.auth
    command := StepCommand.createUser
    status := Status.pending
    sagaId := 9
    payload := []
    previousPayload := [("__", J.num 1)]
    isCurrentStep := false }

def c10wStep : SagaStep :=
  { microservice := AvailableMicroservices.rankings
    command := StepCommand.rankingsRewardCoins
    status := Status.pending
    sagaId := 10
    payload := []
    previousPayload := [("__", J.num 1), ("__keep", J.num 4)]
    isCurrentStep := true }

def c10wNext : List (String × J) :=
  [("tokenId", J.str "t")]

/-! ## Lemmas and claim theorems -/

theorem alistGet_append {κ α : Type} [DecidableEq κ] (l₁ l₂ : List (κ × α)) (k : κ) :
    alistGet (l₁ ++ l₂) k = ((alistGet l₁ k).orElse (fun _ => alistGet l₂ k)) := by
  induction l₁ with
  | nil => simp [alistGet, Option.orElse]
  | cons kv rest ih =>
    by_cases h : kv.1 = k
    · simp [alistGet, h, Option.orElse]
    · simp [alistGet, h, ih]

theorem alistGet_any {κ α : Type} [DecidableEq κ] (l : List (κ × α)) (k : κ) :
    l.any (fun kv => kv.1 = k) = (alistGet l k).isSome := by
  induction l with
  | nil => simp [alistGet]
  | cons kv rest ih =>
    by_cases h : kv.1 = k
    · simp [alistGet, h]
    · simp [alistGet, h, ih]

theorem alistGet_eq_none_of_any_false {κ α : Type} [DecidableEq κ]
    (l : List (κ × α)) (k : κ) (h : l.any (fun kv => kv.1 = k) = false) :
    alistGet l k = none := by
  have hs := alistGet_any l k
  rw [h] at hs
  rcases ho : alistGet l k with _ | v
  · rfl
  · rw [ho] at hs
    simp at hs

theorem alistGet_map_replace {κ α : Type} [DecidableEq κ] (l : List (κ × α))
    (k : κ) (v : α) (hany : l.any (fun kv => kv.1 = k) = true) :
    alistGet (l.map (fun kv => if kv.1 = k then (k, v) else kv)) k = some v := by
  induction l with
  | nil => simp at hany
  | cons kv rest ih =>
    by_cases h : kv.1 = k
    · simp [alistGet, h]
    · simp only [List.any_cons, Bool.or_eq_true, decide_eq_true_eq] at hany
      rcases hany with h1 | h2
      · exact absurd h1 h
      · simp [alistGet, h, ih h2]

theorem alistGet_map_replace_ne {κ α : Type} [DecidableEq κ] (l : List (κ × α))
    (k k₂ : κ) (v : α) (hne : k ≠ k₂) :
    alistGet (l.map (fun kv => if kv.1 = k₂ then (k₂, v) else kv)) k = alistGet l k := by
  induction l with
  | nil => rfl
  | cons kv rest ih =>
    by_cases h : kv.1 = k₂
    · have hkk : ¬ kv.1 = k := by
        rw [h]
        exact Ne.symm hne
      have hk2k : ¬ k₂ = k := Ne.symm hne
      simp [alistGet, h, hkk, hk2k, ih]
    · by_cases h2 : kv.1 = k
      · simp [alistGet, h, h2, hne]
      · simp [alistGet, h, h2, ih]

theorem alistGet_insert_self {κ α : Type} [DecidableEq κ] (l : List (κ × α))
    (k : κ) (v : α) : alistGet (alistInsert l k v) k = some v := by
  unfold alistInsert
  cases hany : l.any (fun kv => kv.1 = k) with
  | true =>
    rw [if_pos rfl]
    exact alistGet_map_replace l k v hany
  | false =>
    rw [if_neg (by simp)]
    rw [alistGet_append, alistGet_eq_none_of_any_false l k hany]
    simp [Option.orElse, alistGet]

theorem alistGet_insert_ne {κ α : Type} [DecidableEq κ] (l : List (κ × α))
    (k k₂ : κ) (v : α) (hne : k ≠ k₂) :
    alistGet (alistInsert l k₂ v) k = alistGet l k := by
  unfold alistInsert
  cases hany : l.any (fun kv => kv.1 = k₂) with
  | true =>
    rw [if_pos rfl]
    exact alistGet_map_replace_ne l k k₂ v hne
  | false =>
    rw [if_neg (by simp)]
    rw [alistGet_append]
    rcases ho : alistGet l k with _ | v₂
    · simp [Option.orElse, alistGet, Ne.symm hne]
    · simp [Option.orElse]

theorem alistGet_remove_self {κ α : Type} [DecidableEq κ] (l : List (κ × α))
    (k : κ) : alistGet (alistRemove l k) k = none := by
  induction l with
  | nil => rfl
  | cons kv rest ih =>
    by_cases h : kv.1 = k
    · simp [alistRemove, h, ih]
    · simp [alistRemove, alistGet, h, ih]

theorem alistGet_remove_ne {κ α : Type} [DecidableEq κ] (l : List (κ × α))
    (k k₂ : κ) (hne : k ≠ k₂) :
    alistGet (alistRemove l k₂) k = alistGet l k := by
  induction l with
  | nil => rfl
  | cons kv rest ih =>
    by_cases h : kv.1 = k₂
    · have hkk : ¬ kv.1 = k := by
        rw [h]
        exact Ne.symm hne
      simp [alistRemove, alistGet, h, hkk, Ne.symm hne, ih]
    · by_cases h2 : kv.1 = k
      · simp [alistRemove, alistGet, h, h2, hne]
      · simp [alistRemove, alistGet, h, h2, ih]

theorem alistGet_eq_none_of_not_mem {κ α : Type} [DecidableEq κ]
    (l : List (κ × α)) (k : κ) (h : k ∉ l.map Prod.fst) : alistGet l k = none := by
  induction l with
  | nil => rfl
  | cons kv rest ih =>
    simp only [List.map_cons, List.mem_cons] at h
    push_neg at h
    have hkk : ¬ kv.1 = k := fun he => h.1 he.symm
    rw [alistGet, if_neg hkk]
    exact ih h.2

theorem alistGetLast_eq_alistGet {κ α : Type} [DecidableEq κ]
    (l : List (κ × α)) (k : κ) (hnd : (l.map Prod.fst).Nodup) :
    alistGetLast l k = alistGet l k := by
  induction l with
  | nil => rfl
  | cons kv rest ih =>
    simp only [List.map_cons, List.nodup_cons] at hnd
    rw [alistGetLast, ih hnd.2, alistGet]
    by_cases h : kv.1 = k
    · have hnone : alistGet rest k = none := by
        apply alistGet_eq_none_of_not_mem
        rw [← h]
        exact hnd.1
      rw [hnone, if_pos h]
    · rcases ho : alistGet rest k with _ | v
      · simp [h]
      · simp [h]

/-- Folding map inserts over a list of entries: the result looks up the
last matching entry, falling back to the accumulator. -/
theorem alistGet_foldl_insert {κ α : Type} [DecidableEq κ]
    (l : List (κ × α)) (acc : List (κ × α)) (k : κ) :
    alistGet (l.foldl (fun a kv => alistInsert a kv.1 kv.2) acc) k =
      match alistGetLast l k with
      | some v => some v
      | none => alistGet acc k := by
  induction l generalizing acc with
  | nil => rfl
  | cons kv rest ih =>
    rw [List.foldl_cons, ih]
    rcases hr : alistGetLast rest k with _ | v
    · simp only [alistGetLast, hr]
      by_cases h : kv.1 = k
      · subst h
        simp [alistGet_insert_self]
      · have hne : k ≠ kv.1 := Ne.symm h
        rw [alistGet_insert_ne acc k kv.1 kv.2 hne]
        simp [h]
    · simp only [alistGetLast, hr]

/-- Folding conditional inserts equals folding plain inserts over the
filtered list. -/
theorem foldl_insert_filter {κ α : Type} [DecidableEq κ]
    (l : List (κ × α)) (acc : List (κ × α)) (p : κ → Bool) :
    l.foldl (fun a kv => if p kv.1 then alistInsert a kv.1 kv.2 else a) acc =
      (l.filter (fun kv => p kv.1)).foldl (fun a kv => alistInsert a kv.1 kv.2) acc := by
  induction l generalizing acc with
  | nil => rfl
  | cons kv rest ih =>
    by_cases h : p kv.1
    · simp [List.filter_cons, h, ih]
    · simp [List.filter_cons, h, ih]

theorem alistGetLast_filter_key {κ α : Type} [DecidableEq κ]
    (l : List (κ × α)) (p : κ → Bool) (k : κ) :
    alistGetLast (l.filter (fun kv => p kv.1)) k =
      if p k then alistGetLast l k else none := by
  induction l with
  | nil => simp [alistGetLast]
  | cons kv rest ih =>
    by_cases hp : p kv.1
    · rw [List.filter_cons, if_pos hp]
      rw [alistGetLast, ih, alistGetLast]
      by_cases hpk : p k
      · rcases alistGetLast rest k with _ | v <;> simp [hpk]
      · have hk : ¬ kv.1 = k := by
          intro he
          apply hpk
          rw [← he]
          exact hp
        simp [hpk, hk]
    · rw [List.filter_cons, if_neg hp]
      rw [ih]
      by_cases hpk : p k
      · have hk : ¬ kv.1 = k := by
          intro he
          apply hp
          rw [he]
          exact hpk
        rw [alistGetLast]
        rcases alistGetLast rest k with _ | v <;> simp [hpk, hk]
      · simp [hpk]

theorem fibLoop_fib (i k : Nat) :
    fibLoop i (Nat.fib k, Nat.fib (k + 1)) = (Nat.fib (k + i), Nat.fib (k + i + 1)) := by
  induction i generalizing k with
  | zero => rfl
  | succ i ih =>
    rw [fibLoop]
    have h2 : Nat.fib k + Nat.fib (k + 1) = Nat.fib (k + 2) := (Nat.fib_add_two).symm
    calc fibLoop i (Nat.fib (k + 1), Nat.fib k + Nat.fib (k + 1))
        = fibLoop i (Nat.fib (k + 1), Nat.fib (k + 2)) := by rw [h2]
      _ = (Nat.fib (k + 1 + i), Nat.fib (k + 1 + i + 1)) := ih (k + 1)
      _ = (Nat.fib (k + (i + 1)), Nat.fib (k + (i + 1) + 1)) := by ring_nf

/-- The source fibonacci computes the standard Fibonacci sequence with
fib 0 = 0 and fib 1 = 1. -/
theorem fibonacci_eq_fib (n : Nat) : fibonacci n = Nat.fib n := by
  match n with
  | 0 => rfl
  | 1 => rfl
  | m + 2 =>
    show (fibLoop (m + 1) (0, 1)).2 = Nat.fib (m + 2)
    have h := fibLoop_fib (m + 1) 0
    norm_num at h
    rw [h]

theorem i32wrap_eq_self (n : Int) (h0 : 0 ≤ n) (h1 : n < 2 ^ 31) : i32wrap n = n := by
  unfold i32wrap
  have : (n + 2 ^ 31) % 2 ^ 32 = n + 2 ^ 31 := by
    apply Int.emod_eq_of_lt <;> omega
  omega

theorem usizeOfInt_eq_toNat (n : Int) (h0 : 0 ≤ n) (h1 : n < 2 ^ 64) :
    usizeOfInt n = n.toNat := by
  unfold usizeOfInt
  rw [Int.emod_eq_of_lt h0 h1]

/-- The payload of the envelope that sagaStepAck publishes, when the next
payload is the object m: lookup is last-match in m, then the filtered
previous payload. -/
theorem sagaStepAck_payload_lookup (step : SagaStep) (m : List (String × J))
    (s : SagaSend) (hok : sagaStepAck step (J.obj m) = Except.ok s) (k : String) :
    alistGet s.step.payload k =
      match alistGetLast m k with
      | some v => some v
      | none =>
        if isMetaKey k then alistGetLast step.previousPayload k else none := by
  have hs : s = { exchange := ""
                  routingKey := Queue.REPLY_TO_SAGA
                  step := { step with
                            status := Status.success
                            payload := m.foldl (fun acc kv => alistInsert acc kv.1 kv.2)
                              (step.previousPayload.foldl
                                (fun acc kv =>
                                  if isMetaKey kv.1 then alistInsert acc kv.1 kv.2 else acc)
                                []) }
                  deliveryMode := 2
                  contentType := "application/json" } := by
    have := hok
    unfold sagaStepAck at this
    simp only at this
    exact (Except.ok.injEq _ _ ▸ this.symm) ▸ rfl
  subst hs
  simp only
  rw [alistGet_foldl_insert]
  rcases alistGetLast m k with _ | v
  · simp only
    rw [foldl_insert_filter, alistGet_foldl_insert, alistGetLast_filter_key]
    rcases hlast : alistGetLast step.previousPayload k with _ | v₂
    · by_cases hm : isMetaKey k <;> simp [hm, alistGet]
    · by_cases hm : isMetaKey k <;> simp [hm, alistGet]
  · rfl

theorem hexPad_length (w n : Nat) : (hexPad w n).length = w := by
  unfold hexPad
  show (List.map _ (List.range w)).length = w
  rw [List.length_map, List.length_range]

theorem uuidV7String_length (ts rand : Nat) : (uuidV7String ts rand).length = 36 := by
  unfold uuidV7String
  simp only [String.length_append, hexPad_length]
  decide

theorem uuidV7String_ne_empty (ts rand : Nat) : uuidV7String ts rand ≠ "" := by
  intro h
  have := uuidV7String_length ts rand
  rw [h] at this
  simp [String.length] at this

theorem succ_mod_eq (n m : Nat) (hm : 0 < m) :
    (n + 1) % m = if n % m + 1 = m then 0 else n % m + 1 := by
  have hd := Nat.div_add_mod n m
  by_cases hc : n % m + 1 = m
  · rw [if_pos hc]
    have he : n + 1 = m * (n / m) + m := by omega
    rw [he]
    simp [Nat.mul_add_mod, Nat.mod_self]
  · rw [if_neg hc]
    have hr : n % m < m := Nat.mod_lt _ hm
    have he : n + 1 = m * (n / m) + (n % m + 1) := by omega
    rw [he, Nat.mul_add_mod]
    exact Nat.mod_eq_of_lt (by omega)

theorem occAt_formula (M : Int) (hM : 1 ≤ M) (n : Nat) :
    occAt M (n + 1) = ((n % M.toNat : Nat) : Int) + 1 := by
  have hm : 0 < M.toNat := by omega
  have hMm : ((M.toNat : Nat) : Int) = M := Int.toNat_of_nonneg (by omega)
  induction n with
  | zero =>
    simp only [occAt, nextOccurrence]
    rw [if_neg (by omega)]
    simp
  | succ n ih =>
    rw [occAt, ih, nextOccurrence]
    have hr : n % M.toNat < M.toNat := Nat.mod_lt _ hm
    by_cases hc : n % M.toNat + 1 = M.toNat
    · rw [if_pos (by omega), succ_mod_eq n M.toNat hm, if_pos hc]
      simp
    · rw [if_neg (by omega), succ_mod_eq n M.toNat hm, if_neg hc]
      push_cast
      ring

theorem occAt_bounds (M : Int) (hM : 1 ≤ M) (n : Nat) :
    1 ≤ occAt M (n + 1) ∧ occAt M (n + 1) ≤ M := by
  rw [occAt_formula M hM n]
  have hm : 0 < M.toNat := by omega
  have hMm : ((M.toNat : Nat) : Int) = M := Int.toNat_of_nonneg (by omega)
  have hr : n % M.toNat < M.toNat := Nat.mod_lt _ hm
  omega

/-- The requeue transformation never touches keys other than all-micro and
micro. -/
theorem publishRequeue_headers_get (nack : Nack) (delayMs : Nat)
    (headers : FieldTable) (k : String) (hk1 : k ≠ "all-micro")
    (hk2 : k ≠ "micro") :
    alistGet ((nack.publishRequeue delayMs headers).props.propHeaders.getD []) k =
      alistGet headers k := by
  unfold Nack.publishRequeue
  by_cases hex : nack.delivery.exchange = Exchange.MATCHING
  · rw [if_pos hex]
    show alistGet (alistInsert (alistRemove headers "all-micro") "micro"
      (AMQPValue.longString nack.queueName)) k = alistGet headers k
    rw [alistGet_insert_ne _ _ _ _ hk2, alistGet_remove_ne _ _ _ hk1]
  · rw [if_neg hex]
    rfl

theorem publishRequeue_matching (nack : Nack) (delayMs : Nat)
    (headers : FieldTable) (hex : nack.delivery.exchange = Exchange.MATCHING) :
    (nack.publishRequeue delayMs headers).exchange = Exchange.MATCHING_REQUEUE
    ∧ (nack.publishRequeue delayMs headers).routingKey = ""
    ∧ alistGet ((nack.publishRequeue delayMs headers).props.propHeaders.getD [])
        "all-micro" = none
    ∧ alistGet ((nack.publishRequeue delayMs headers).props.propHeaders.getD [])
        "micro" = some (AMQPValue.longString nack.queueName) := by
  unfold Nack.publishRequeue
  rw [if_pos hex]
  refine ⟨rfl, rfl, ?_, ?_⟩
  · show alistGet (alistInsert (alistRemove headers "all-micro") "micro"
      (AMQPValue.longString nack.queueName)) "all-micro" = none
    rw [alistGet_insert_ne _ _ _ _ (by decide), alistGet_remove_self]
  · show alistGet (alistInsert (alistRemove headers "all-micro") "micro"
      (AMQPValue.longString nack.queueName)) "micro" =
        some (AMQPValue.longString nack.queueName)
    rw [alistGet_insert_self]

theorem publishRequeue_other (nack : Nack) (delayMs : Nat)
    (headers : FieldTable) (hex : ¬ nack.delivery.exchange = Exchange.MATCHING) :
    (nack.publishRequeue delayMs headers).exchange = Exchange.REQUEUE
    ∧ (nack.publishRequeue delayMs headers).routingKey =
        nack.queueName ++ "_routing_key"
    ∧ (nack.publishRequeue delayMs headers).props.propHeaders = some headers := by
  unfold Nack.publishRequeue
  rw [if_neg hex]
  exact ⟨rfl, rfl, rfl⟩

theorem publishRequeue_props (nack : Nack) (delayMs : Nat) (headers : FieldTable) :
    (nack.publishRequeue delayMs headers).props.expiration = some (toString delayMs)
    ∧ (nack.publishRequeue delayMs headers).props.appId =
        some (nack.delivery.appId.getD "")
    ∧ (nack.publishRequeue delayMs headers).props.messageId =
        some (nack.delivery.messageId.getD "")
    ∧ (nack.publishRequeue delayMs headers).props.deliveryMode = some 2
    ∧ (nack.publishRequeue delayMs headers).body = nack.delivery.data :=
  ⟨rfl, rfl, rfl, rfl, rfl⟩

theorem withDelay_retryCount (nack : Nack) (delayMs : Nat) (R : Int) :
    (nack.withDelay delayMs R).retryCount = i32wrap (calculateRetryCount nack) ∧
    (nack.withDelay delayMs R).delayMs = delayMs := by
  unfold Nack.withDelay
  by_cases hc : calculateRetryCount nack > R <;> simp [hc]

theorem withDelay_published_eq (nack : Nack) (delayMs : Nat) (R : Int)
    (msg : PublishedMessage) (h : (nack.withDelay delayMs R).published = some msg) :
    msg = nack.publishRequeue delayMs
      (alistInsert nack.delivery.headers "x-retry-count"
        (AMQPValue.longLongInt (calculateRetryCount nack))) := by
  unfold Nack.withDelay at h
  by_cases hc : calculateRetryCount nack > R
  · simp [hc] at h
  · simp [hc] at h
    exact h.symm

theorem withDelay_none_of_gt (nack : Nack) (delayMs : Nat) (R : Int)
    (hc : calculateRetryCount nack > R) :
    nack.withDelay delayMs R =
      { retryCount := i32wrap (calculateRetryCount nack), delayMs := delayMs,
        published := none } := by
  unfold Nack.withDelay
  simp [hc]

theorem fibo_fields (nack : Nack) (M R : Int) :
    (nack.withFibonacciStrategy M R).retryCount = i32wrap (calculateRetryCount nack)
    ∧ (nack.withFibonacciStrategy M R).occurrence =
        i32wrap (nextOccurrence M (readOccurrence nack.delivery.headers))
    ∧ (nack.withFibonacciStrategy M R).delayMs =
        1000 * fibonacci (usizeOfInt
          (nextOccurrence M (readOccurrence nack.delivery.headers))) := by
  unfold Nack.withFibonacciStrategy
  by_cases hc : calculateRetryCount nack > R <;> simp [hc]

theorem fibo_published_eq (nack : Nack) (M R : Int) (msg : PublishedMessage)
    (h : (nack.withFibonacciStrategy M R).published = some msg) :
    msg = nack.publishRequeue
      (1000 * fibonacci (usizeOfInt
        (nextOccurrence M (readOccurrence nack.delivery.headers))))
      (alistInsert
        (alistInsert nack.delivery.headers "x-retry-count"
          (AMQPValue.longLongInt (calculateRetryCount nack)))
        "x-occurrence"
        (AMQPValue.longLongInt
          (nextOccurrence M (readOccurrence nack.delivery.headers)))) := by
  unfold Nack.withFibonacciStrategy at h
  by_cases hc : calculateRetryCount nack > R
  · simp [hc] at h
  · simp [hc] at h
    exact h.symm

theorem fibo_published_of_le (nack : Nack) (M R : Int)
    (hc : ¬ calculateRetryCount nack > R) :
    (nack.withFibonacciStrategy M R).published =
      some (nack.publishRequeue
        (1000 * fibonacci (usizeOfInt
          (nextOccurrence M (readOccurrence nack.delivery.headers))))
        (alistInsert
          (alistInsert nack.delivery.headers "x-retry-count"
            (AMQPValue.longLongInt (calculateRetryCount nack)))
          "x-occurrence"
          (AMQPValue.longLongInt
            (nextOccurrence M (readOccurrence nack.delivery.headers))))) := by
  unfold Nack.withFibonacciStrategy
  simp [hc]

theorem fibo_none_of_gt (nack : Nack) (M R : Int)
    (hc : calculateRetryCount nack > R) :
    (nack.withFibonacciStrategy M R).published = none := by
  unfold Nack.withFibonacciStrategy
  simp [hc]

theorem fiboChainDelivery_succ_of (d0 : MyDelivery) (q : String) (M R : Int)
    (n : Nat) (d : MyDelivery) (hd : fiboChainDelivery d0 q M R n = some d) :
    fiboChainDelivery d0 q M R (n + 1) =
      match (Nack.withFibonacciStrategy { delivery := d, queueName := q } M R).published with
      | none => none
      | some m => some { d with headers := m.props.propHeaders.getD [] } := by
  rw [fiboChainDelivery, hd]

/-- Invariant of the repeated-nack chain: after n republishes the
delivery carries x-occurrence equal to the n-th occurrence value and
x-retry-count equal to n. -/
theorem fiboChain_invariant (d0 : MyDelivery) (q : String) (M R : Int)
    (h1 : alistGet d0.headers "x-occurrence" = none)
    (h2 : alistGet d0.headers "x-retry-count" = none) :
    ∀ n : Nat, (n : Int) ≤ R →
      ∃ d, fiboChainDelivery d0 q M R n = some d ∧
        readOccurrence d.headers = occAt M n ∧
        readRetryCount d.headers = (n : Int) := by
  intro n
  induction n with
  | zero =>
    intro _
    refine ⟨d0, rfl, ?_, ?_⟩
    · unfold readOccurrence
      rw [h1]
      rfl
    · unfold readRetryCount
      rw [h2]
      rfl
  | succ n ih =>
    intro hn
    obtain ⟨d, hd, hocc, hcnt⟩ := ih (by push_cast at hn ⊢; omega)
    have hcount : calculateRetryCount { delivery := d, queueName := q } =
        (n : Int) + 1 := by
      unfold calculateRetryCount
      rw [hcnt]
    have hle : ¬ calculateRetryCount { delivery := d, queueName := q } > R := by
      rw [hcount]
      push_cast at hn
      omega
    have hpub := fibo_published_of_le { delivery := d, queueName := q } M R hle
    refine ⟨{ d with headers :=
        ((Nack.publishRequeue { delivery := d, queueName := q }
          (1000 * fibonacci (usizeOfInt (nextOccurrence M (readOccurrence d.headers))))
          (alistInsert (alistInsert d.headers "x-retry-count"
              (AMQPValue.longLongInt (calculateRetryCount { delivery := d, queueName := q })))
            "x-occurrence"
            (AMQPValue.longLongInt
              (nextOccurrence M (readOccurrence d.headers))))).props.propHeaders.getD []) },
      ?_, ?_, ?_⟩
    · rw [fiboChainDelivery_succ_of d0 q M R n d hd, hpub]
    · unfold readOccurrence
      rw [publishRequeue_headers_get _ _ _ _ (by decide) (by decide),
        alistGet_insert_self, occAt, ← hocc]
      rfl
    · unfold readRetryCount
      rw [publishRequeue_headers_get _ _ _ _ (by decide) (by decide),
        alistGet_insert_ne _ _ _ _ (by decide), alistGet_insert_self]
      show calculateRetryCount { delivery := d, queueName := q } = ((n + 1 : Nat) : Int)
      rw [hcount]
      push_cast
      ring

/-- C2: with_fibonacci_strategy reads x-occurrence (default 0), resets it
to 1 when it has reached max_occurrence and increments it otherwise,
returns a delay of fib(occurrence) seconds (fib standard, fib 0 = 0,
fib 1 = 1), and across repeated nacks of one message with max_occurrence M
the observed delay sequence is fib 1, .., fib M, fib 1, .. seconds. -/
theorem c2_fibonacci_strategy (d : MyDelivery) (q : String) (M R : Int)
    (hM : 1 ≤ M) (hM31 : M < 2 ^ 31) (h0 : 0 ≤ readOccurrence d.headers) :
    ((Nack.withFibonacciStrategy { delivery := d, queueName := q } M R).occurrence =
      if readOccurrence d.headers ≥ M then 1 else readOccurrence d.headers + 1)
    ∧ (Nack.withFibonacciStrategy { delivery := d, queueName := q } M R).delayMs =
        1000 * Nat.fib
          (Nack.withFibonacciStrategy { delivery := d, queueName := q } M R).occurrence.toNat
    ∧ (∀ d0 : MyDelivery,
        alistGet d0.headers "x-occurrence" = none →
        alistGet d0.headers "x-retry-count" = none →
        ∀ n : Nat, (n : Int) ≤ R →
          fiboDelayAt d0 q M R n = some (1000 * Nat.fib (n % M.toNat + 1))) := by
  have hff := fibo_fields { delivery := d, queueName := q } M R
  have hproj : ({ delivery := d, queueName := q : Nack }).delivery.headers = d.headers := rfl
  rw [hproj] at hff
  have hoccb : 1 ≤ nextOccurrence M (readOccurrence d.headers) ∧
      nextOccurrence M (readOccurrence d.headers) < 2 ^ 31 := by
    unfold nextOccurrence
    by_cases hc : readOccurrence d.headers ≥ M
    · rw [if_pos hc]
      omega
    · rw [if_neg hc]
      omega
  have hwrap : i32wrap (nextOccurrence M (readOccurrence d.headers)) =
      nextOccurrence M (readOccurrence d.headers) :=
    i32wrap_eq_self _ (by omega) (by omega)
  refine ⟨?_, ?_, ?_⟩
  · rw [hff.2.1, hwrap]
    rfl
  · rw [hff.2.2, hff.2.1, hwrap,
      usizeOfInt_eq_toNat _ (by omega) (by omega), fibonacci_eq_fib]
  · intro d0 hh1 hh2 n hnR
    obtain ⟨dn, hdn, hoccn, _⟩ := fiboChain_invariant d0 q M R hh1 hh2 n hnR
    unfold fiboDelayAt
    rw [hdn]
    show some ((Nack.withFibonacciStrategy { delivery := dn, queueName := q } M R).delayMs) = _
    have hf2 := (fibo_fields { delivery := dn, queueName := q } M R).2.2
    rw [hf2]
    show some (1000 * fibonacci (usizeOfInt (nextOccurrence M (readOccurrence dn.headers)))) = _
    rw [hoccn]
    show some (1000 * fibonacci (usizeOfInt (occAt M (n + 1)))) = _
    rw [occAt_formula M hM n]
    have hm : 0 < M.toNat := by omega
    have hr : n % M.toNat < M.toNat := Nat.mod_lt _ hm
    have hcast : ((n % M.toNat : Nat) : Int) + 1 = ((n % M.toNat + 1 : Nat) : Int) := by
      push_cast
      ring
    rw [hcast, usizeOfInt_eq_toNat _ (by omega) (by omega), Int.toNat_natCast,
      fibonacci_eq_fib]

theorem c2_fibonacci_strategy_witness :
    fiboDelayAt c2wD0 "auth_match_commands" 3 30 4 =
      some (1000 * Nat.fib (4 % (3 : Int).toNat + 1)) := by
  have h := (c2_fibonacci_strategy c2wD0 "auth_match_commands" 3 30 (by decide)
    (by decide) (by decide)).2.2
  exact h c2wD0 rfl rfl 4 (by decide)

/-- C3: both nack strategies compute the new retry count from the
x-retry-count header (default 0 when absent or not an integer) plus one,
carry it in the republished headers so successive attempts are strictly
increasing, and when the new count exceeds max_retries they return the
pair successfully without republishing. -/
theorem c3_retry_count (d : MyDelivery) (q : String) (delayMs : Nat) (M R : Int)
    (h0 : 0 ≤ readRetryCount d.headers)
    (h31 : readRetryCount d.headers + 1 < 2 ^ 31) :
    ((Nack.withDelay { delivery := d, queueName := q } delayMs R).retryCount =
        readRetryCount d.headers + 1)
    ∧ ((Nack.withFibonacciStrategy { delivery := d, queueName := q } M R).retryCount =
        readRetryCount d.headers + 1)
    ∧ (∀ msg, (Nack.withDelay { delivery := d, queueName := q } delayMs R).published =
          some msg →
        readRetryCount (msg.props.propHeaders.getD []) = readRetryCount d.headers + 1 ∧
        readRetryCount (msg.props.propHeaders.getD []) > readRetryCount d.headers)
    ∧ (∀ msg, (Nack.withFibonacciStrategy { delivery := d, queueName := q } M R).published =
          some msg →
        readRetryCount (msg.props.propHeaders.getD []) = readRetryCount d.headers + 1)
    ∧ (readRetryCount d.headers + 1 > R →
        Nack.withDelay { delivery := d, queueName := q } delayMs R =
          { retryCount := readRetryCount d.headers + 1, delayMs := delayMs,
            published := none })
    ∧ (readRetryCount d.headers + 1 > R →
        (Nack.withFibonacciStrategy { delivery := d, queueName := q } M R).published =
          none) := by
  have hcnt : calculateRetryCount { delivery := d, queueName := q } =
      readRetryCount d.headers + 1 := rfl
  have hwrap : i32wrap (calculateRetryCount { delivery := d, queueName := q }) =
      readRetryCount d.headers + 1 := by
    rw [hcnt]
    exact i32wrap_eq_self _ (by omega) (by omega)
  refine ⟨?_, ?_, ?_, ?_, ?_, ?_⟩
  · rw [(withDelay_retryCount _ _ _).1, hwrap]
  · rw [(fibo_fields _ _ _).1, hwrap]
  · intro msg hmsg
    rw [withDelay_published_eq _ _ _ _ hmsg]
    unfold readRetryCount
    rw [publishRequeue_headers_get _ _ _ _ (by decide) (by decide),
      alistGet_insert_self]
    constructor
    · exact hcnt
    · show calculateRetryCount { delivery := d, queueName := q } >
        readRetryCount d.headers
      rw [hcnt]
      omega
  · intro msg hmsg
    rw [fibo_published_eq _ _ _ _ hmsg]
    unfold readRetryCount
    rw [publishRequeue_headers_get _ _ _ _ (by decide) (by decide),
      alistGet_insert_ne _ _ _ _ (by decide), alistGet_insert_self]
    exact hcnt
  · intro hgt
    rw [withDelay_none_of_gt _ _ _ (by rw [hcnt]; exact hgt), hwrap]
  · intro hgt
    exact fibo_none_of_gt _ _ _ (by rw [hcnt]; exact hgt)

theorem c3_retry_count_witness :
    (Nack.withDelay { delivery := c3wDelivery, queueName := "q" } 100 30).retryCount = 6 ∧
    (Nack.withFibonacciStrategy { delivery := c3wDelivery, queueName := "q" } 10 3).published =
      none := by
  have h := c3_retry_count c3wDelivery "q" 100 10 30 (by decide) (by decide)
  have h2 := c3_retry_count c3wDelivery "q" 100 10 3 (by decide) (by decide)
  constructor
  · rw [h.1]
    decide
  · exact h2.2.2.2.2.2 (by decide)

/-- C4: a requeue republish from matching_exchange goes to
matching_requeue_exchange with an empty routing key, with all-micro
removed from the headers and micro set to the consuming queue name; a
republish from any other exchange goes to requeue_exchange with routing
key queue name followed by _routing_key. -/
theorem c4_requeue_destination (d : MyDelivery) (q : String) (delayMs : Nat)
    (M R : Int) (msg : PublishedMessage)
    (hm : (Nack.withDelay { delivery := d, queueName := q } delayMs R).published =
            some msg ∨
          (Nack.withFibonacciStrategy { delivery := d, queueName := q } M R).published =
            some msg) :
    (d.exchange = Exchange.MATCHING →
      msg.exchange = Exchange.MATCHING_REQUEUE ∧ msg.routingKey = "" ∧
      alistGet (msg.props.propHeaders.getD []) "all-micro" = none ∧
      alistGet (msg.props.propHeaders.getD []) "micro" =
        some (AMQPValue.longString q))
    ∧ (d.exchange ≠ Exchange.MATCHING →
      msg.exchange = Exchange.REQUEUE ∧
      msg.routingKey = q ++ "_routing_key") := by
  rcases hm with hm | hm
  · rw [withDelay_published_eq _ _ _ _ hm]
    constructor
    · intro hex
      exact publishRequeue_matching _ _ _ hex
    · intro hex
      have h := publishRequeue_other { delivery := d, queueName := q } delayMs
        (alistInsert d.headers "x-retry-count"
          (AMQPValue.longLongInt (calculateRetryCount { delivery := d, queueName := q })))
        hex
      exact ⟨h.1, h.2.1⟩
  · rw [fibo_published_eq _ _ _ _ hm]
    constructor
    · intro hex
      exact publishRequeue_matching _ _ _ hex
    · intro hex
      have h := publishRequeue_other { delivery := d, queueName := q }
        (1000 * fibonacci (usizeOfInt (nextOccurrence M (readOccurrence d.headers))))
        (alistInsert
          (alistInsert d.headers "x-retry-count"
            (AMQPValue.longLongInt (calculateRetryCount { delivery := d, queueName := q })))
          "x-occurrence"
          (AMQPValue.longLongInt (nextOccurrence M (readOccurrence d.headers))))
        hex
      exact ⟨h.1, h.2.1⟩

theorem c4_requeue_destination_witness :
    ∃ msg, (Nack.withDelay c4wNack 100 30).published = some msg ∧
      msg.exchange = Exchange.MATCHING_REQUEUE ∧ msg.routingKey = "" ∧
      alistGet (msg.props.propHeaders.getD []) "all-micro" = none ∧
      alistGet (msg.props.propHeaders.getD []) "micro" =
        some (AMQPValue.longString "auth_match_commands") := by
  refine ⟨_, rfl, ?_⟩
  exact (c4_requeue_destination c4wDelivery "auth_match_commands" 100 3 30 _
    (Or.inl rfl)).1 rfl

/-- C5: every requeue republish carries delivery-mode 2, an expiration
equal to the delay in milliseconds as a decimal string, and the app-id,
message-id and body taken unchanged from the original delivery. -/
theorem c5_requeue_properties (d : MyDelivery) (q : String) (delayMs : Nat)
    (M R : Int) (a mi : String) (ha : d.appId = some a)
    (hmi : d.messageId = some mi) :
    (∀ msg, (Nack.withDelay { delivery := d, queueName := q } delayMs R).published =
        some msg →
      msg.props.deliveryMode = some 2 ∧
      msg.props.expiration = some (toString delayMs) ∧
      msg.props.appId = some a ∧ msg.props.messageId = some mi ∧
      msg.body = d.data)
    ∧ (∀ msg, (Nack.withFibonacciStrategy { delivery := d, queueName := q } M R).published =
        some msg →
      msg.props.deliveryMode = some 2 ∧
      msg.props.expiration = some (toString
        (Nack.withFibonacciStrategy { delivery := d, queueName := q } M R).delayMs) ∧
      msg.props.appId = some a ∧ msg.props.messageId = some mi ∧
      msg.body = d.data) := by
  constructor
  · intro msg hmsg
    rw [withDelay_published_eq _ _ _ _ hmsg]
    have h := publishRequeue_props { delivery := d, queueName := q } delayMs
      (alistInsert d.headers "x-retry-count"
        (AMQPValue.longLongInt (calculateRetryCount { delivery := d, queueName := q })))
    refine ⟨h.2.2.2.1, h.1, ?_, ?_, h.2.2.2.2⟩
    · rw [h.2.1]
      show some (d.appId.getD "") = some a
      rw [ha]
      rfl
    · rw [h.2.2.1]
      show some (d.messageId.getD "") = some mi
      rw [hmi]
      rfl
  · intro msg hmsg
    rw [fibo_published_eq _ _ _ _ hmsg]
    have h := publishRequeue_props { delivery := d, queueName := q }
      (1000 * fibonacci (usizeOfInt (nextOccurrence M (readOccurrence d.headers))))
      (alistInsert
        (alistInsert d.headers "x-retry-count"
          (AMQPValue.longLongInt (calculateRetryCount { delivery := d, queueName := q })))
        "x-occurrence"
        (AMQPValue.longLongInt (nextOccurrence M (readOccurrence d.headers))))
    refine ⟨h.2.2.2.1, ?_, ?_, ?_, h.2.2.2.2⟩
    · rw [h.1, (fibo_fields { delivery := d, queueName := q } M R).2.2]
    · rw [h.2.1]
      show some (d.appId.getD "") = some a
      rw [ha]
      rfl
    · rw [h.2.2.1]
      show some (d.messageId.getD "") = some mi
      rw [hmi]
      rfl

theorem c5_requeue_properties_witness :
    ∃ msg, (Nack.withDelay c5wNack 1500 30).published = some msg ∧
      msg.props.deliveryMode = some 2 ∧ msg.props.expiration = some "1500" ∧
      msg.props.appId = some "auth" ∧ msg.props.messageId = some "m-4" ∧
      msg.body = c5wDelivery.data := by
  refine ⟨_, rfl, ?_⟩
  have h := (c5_requeue_properties c5wDelivery "authq" 1500 3 30 "auth" "m-4"
    rfl rfl).1 _ rfl
  exact ⟨h.1, h.2.1.trans (by rfl), h.2.2.1, h.2.2.2.1, h.2.2.2.2⟩

/-- C1 counterexample: with previousPayload containing the keys __ and
__foo and next_payload overriding __foo, the published payload drops __
(its length is not greater than 2) and carries the next_payload value of
__foo, not the original one. -/
theorem c1_counterexample :
    ((sagaStepAck c1cStep (J.obj [("__foo", J.num 3)])).toOption.map
      (fun s => (alistGet s.step.payload "__", alistGet s.step.payload "__foo"))) =
      some ((none : Option J), some (J.num 3))
    ∧ (some (J.num 3) : Option J) ≠ some (J.num 2)
    ∧ (none : Option J) ≠ some (J.num 1) := by
  refine ⟨rfl, ?_, ?_⟩
  · intro h
    simp at h
  · intro h
    simp at h

/-- C1 (amended): on ack with an object next_payload, the envelope sent to
reply_to_saga is the consumed one except status success and the merged
payload, where a key resolves to its next_payload value when present there
and otherwise to its previousPayload value when the key is longer than two
characters and starts with a double underscore; a non-object next_payload
fails with InvalidPayload and nothing is sent. -/
theorem c1_saga_ack (step : SagaStep) (m : List (String × J))
    (hnd1 : (step.previousPayload.map Prod.fst).Nodup)
    (hnd2 : (m.map Prod.fst).Nodup) :
    (∃ s, sagaStepAck step (J.obj m) = Except.ok s ∧
      s.exchange = "" ∧ s.routingKey = Queue.REPLY_TO_SAGA ∧
      s.deliveryMode = 2 ∧ s.contentType = "application/json" ∧
      s.step.status = Status.success ∧
      s.step.microservice = step.microservice ∧
      s.step.command = step.command ∧
      s.step.sagaId = step.sagaId ∧
      s.step.previousPayload = step.previousPayload ∧
      s.step.isCurrentStep = step.isCurrentStep ∧
      (∀ k : String,
        alistGet s.step.payload k =
          match alistGet m k with
          | some v => some v
          | none =>
            if isMetaKey k then alistGet step.previousPayload k else none))
    ∧ (∀ next : J, (∀ mm : List (String × J), next ≠ J.obj mm) →
        sagaStepAck step next =
          Except.error (RabbitMQError.invalidPayload "Expected an object")) := by
  constructor
  · refine ⟨_, rfl, rfl, rfl, rfl, rfl, rfl, rfl, rfl, rfl, rfl, rfl, ?_⟩
    intro k
    rw [sagaStepAck_payload_lookup step m _ rfl k,
      alistGetLast_eq_alistGet m k hnd2,
      alistGetLast_eq_alistGet step.previousPayload k hnd1]
  · intro next hne
    rcases next with _ | b | n | s | a | mm
    · rfl
    · rfl
    · rfl
    · rfl
    · rfl
    · exact absurd rfl (hne mm)

theorem c1_saga_ack_witness :
    ∃ s, sagaStepAck c1wStep (J.obj c1wNext) = Except.ok s ∧
      alistGet s.step.payload "__sagaCtx" = some (J.str "abc") ∧
      alistGet s.step.payload "tokenId" = some (J.str "t") ∧
      alistGet s.step.payload "other" = none ∧
      s.step.status = Status.success := by
  obtain ⟨s, hs, _, _, _, _, hst, _, _, _, _, _, hlook⟩ :=
    (c1_saga_ack c1wStep c1wNext (by decide) (by decide)).1
  refine ⟨s, hs, ?_, ?_, ?_, hst⟩
  · exact (hlook "__sagaCtx").trans (by rfl)
  · exact (hlook "tokenId").trans (by rfl)
  · exact (hlook "other").trans (by rfl)

/-- C10 counterexample: when next_payload itself contains the key __, that
key appears in the published envelope even though previousPayload contains
it, so it is not absent in every saga step whose previousPayload holds
it. -/
theorem c10_counterexample :
    ((sagaStepAck c10cStep (J.obj [("__", J.num 2)])).toOption.map
      (fun s => alistGet s.step.payload "__")) = some (some (J.num 2)) := rfl

/-- C10 (amended): a previousPayload key is transferred only when its
length is strictly greater than 2 and it starts with a double underscore;
in particular the key consisting of the two characters __ is absent from
the published payload whenever next_payload does not itself contain it. -/
theorem c10_meta_key_filter (step : SagaStep) (m : List (String × J)) (k : String)
    (hk : isMetaKey k = false) (hm : alistGetLast m k = none) :
    ∀ s, sagaStepAck step (J.obj m) = Except.ok s →
      alistGet s.step.payload k = none := by
  intro s hok
  rw [sagaStepAck_payload_lookup step m s hok k, hm]
  simp [hk]

theorem c10_meta_key_filter_witness :
    ∃ s, sagaStepAck c10wStep (J.obj c10wNext) = Except.ok s ∧
      alistGet s.step.payload "__" = none :=
  ⟨_, rfl, c10_meta_key_filter c10wStep c10wNext "__" (by decide) rfl _ rfl⟩

/-- C6 counterexample: the audit topology builder does not declare the
queue audit_published_commands. -/
theorem c6_counterexample :
    "audit_published_commands" ∉ declaredQueueNames createAuditLoggingResources := by
  decide

/-- C6 (amended): create_audit_logging_resources declares the durable
direct exchange audit_exchange and exactly the three durable queues
audit_received_commands, audit_processed_commands and
audit_dead_letter_commands, each bound to audit_exchange with routing key
equal to its event tag; start_consuming_audit spawns consumers for exactly
those queues.  No audit_published_commands queue and no audit.published
binding are declared. -/
theorem c6_audit_topology :
    declaredQueueNames createAuditLoggingResources =
      ["audit_received_commands", "audit_processed_commands",
       "audit_dead_letter_commands"]
    ∧ TopologyDecl.exchangeDecl Exchange.AUDIT "direct" true ∈
        createAuditLoggingResources
    ∧ declaredBindings createAuditLoggingResources =
      [("audit_received_commands", Exchange.AUDIT, MicroserviceEvent.auditReceived.toTag),
       ("audit_processed_commands", Exchange.AUDIT, MicroserviceEvent.auditProcessed.toTag),
       ("audit_dead_letter_commands", Exchange.AUDIT, MicroserviceEvent.auditDeadLetter.toTag)]
    ∧ (∀ q args, TopologyDecl.queueDecl q false args ∉ createAuditLoggingResources)
    ∧ startConsumingAuditQueues = declaredQueueNames createAuditLoggingResources
    ∧ (∀ b ∈ declaredBindings createAuditLoggingResources,
        b.2.2 ≠ MicroserviceEvent.auditPublished.toTag) := by
  refine ⟨rfl, by decide, rfl, ?_, rfl, ?_⟩
  · intro q args h
    simp [createAuditLoggingResources] at h
  · intro b hb
    simp [declaredBindings, createAuditLoggingResources] at hb
    rcases hb with h | h | h <;> rw [h] <;> decide

theorem c6_audit_topology_witness :
    TopologyDecl.queueDecl "audit_received_commands" false [] ∉
      createAuditLoggingResources ∧
    ("audit_received_commands", Exchange.AUDIT, "audit.received") ∈
      declaredBindings createAuditLoggingResources :=
  ⟨c6_audit_topology.2.2.2.1 "audit_received_commands" [], by
    rw [c6_audit_topology.2.2.1]
    decide⟩

/-- The collected event values depend only on the header values, not on
the keys. -/
theorem eventMatches_values_only (h₁ h₂ : FieldTable)
    (hv : h₁.map Prod.snd = h₂.map Prod.snd) :
    eventMatches h₁ = eventMatches h₂ := by
  unfold eventMatches
  have key : ∀ hh : FieldTable,
      List.filterMap (fun kv => headerValueEvent kv.2) hh =
        List.filterMap headerValueEvent (hh.map Prod.snd) := by
    intro hh
    induction hh with
    | nil => rfl
    | cons kv rest ih =>
      rcases hvv : headerValueEvent kv.2 with _ | e <;>
        simp [List.filterMap_cons, hvv, ih]
  rw [key h₁, key h₂, hv]

theorem findEventValues_of_matches (h : FieldTable) :
    (eventMatches h = [] →
      findEventValues h = Except.error RabbitMQError.invalidHeader)
    ∧ ∀ e rest, eventMatches h = e :: rest →
      findEventValues h = Except.ok (e :: rest) := by
  constructor
  · intro he
    unfold findEventValues
    rw [he]
    rfl
  · intro e rest he
    unfold findEventValues
    rw [he]
    rfl

/-- C7: the dispatcher collects the header entries whose value is a
long-string naming a known event tag; with no match handle_event fails
with InvalidHeader and the consume loop nacks the delivery; with one or
more matches the first collected one routes the delivery; the header keys
play no role. -/
theorem c7_event_header_routing (selfM q : String) (d : DeliveryIn)
    (ts rand now : Nat) (pm : List (String × J))
    (hbody : d.dataJson = some (J.obj pm)) :
    (eventMatches d.headers = [] →
      handleEvent selfM d q ts rand now = Except.error RabbitMQError.invalidHeader ∧
      consumeEventStep selfM d q ts rand now = DispatchOutcome.nackedDefault)
    ∧ (∀ e rest, eventMatches d.headers = e :: rest →
        ∃ out, handleEvent selfM d q ts rand now = Except.ok out ∧
          out.routedEvent = e ∧ out.ctx.processedEvent = e.toTag ∧
          consumeEventStep selfM d q ts rand now = DispatchOutcome.emitted out)
    ∧ (∀ d₂ : DeliveryIn, d.headers.map Prod.snd = d₂.headers.map Prod.snd →
        findEventValues d.headers = findEventValues d₂.headers) := by
  refine ⟨?_, ?_, ?_⟩
  · intro he
    have hfe := (findEventValues_of_matches d.headers).1 he
    have hh : handleEvent selfM d q ts rand now =
        Except.error RabbitMQError.invalidHeader := by
      simp [handleEvent, hbody, hfe]
    refine ⟨hh, ?_⟩
    unfold consumeEventStep
    rw [hh]
  · intro e rest he
    have hfe := (findEventValues_of_matches d.headers).2 e rest he
    have hh : handleEvent selfM d q ts rand now = Except.ok
        { routedEvent := e
          ctx :=
            { payload := pm
              microservice := selfM
              processedEvent := e.toTag
              publisherMicroservice := d.appId.getD "unknown"
              eventId := d.messageId.getD (uuidV7String ts rand) }
          audit :=
            { publisherMicroservice := d.appId.getD "unknown"
              receiverMicroservice := selfM
              receivedEvent := e.toTag
              receivedAt := now
              queueName := q
              eventId := d.messageId.getD (uuidV7String ts rand) } } := by
      simp [handleEvent, hbody, hfe]
    refine ⟨_, hh, rfl, rfl, ?_⟩
    unfold consumeEventStep
    rw [hh]
  · intro d₂ hv
    unfold findEventValues
    rw [eventMatches_values_only d.headers d₂.headers hv]

theorem c7_event_header_routing_witness :
    ∃ out, handleEvent "social" c7wDelivery "social_match_commands" 0 0 0 =
        Except.ok out ∧
      out.routedEvent = MicroserviceEvent.authDeletedUser ∧
      out.ctx.processedEvent = "auth.deleted_user" := by
  obtain ⟨out, h1, h2, h3, _⟩ :=
    (c7_event_header_routing "social" "social_match_commands" c7wDelivery 0 0 0
      [("userId", J.str "user1233")] rfl).2.1
      MicroserviceEvent.authDeletedUser [MicroserviceEvent.socialNewUser] (by decide)
  exact ⟨out, h1, h2, h3.trans (by rfl)⟩

/-- The form of every successful handle_event: the routed event is the
head of the collected matches and the context fields come from the
delivery properties. -/
theorem handleEvent_ok_form (selfM q : String) (d : DeliveryIn)
    (ts rand now : Nat) (pm : List (String × J))
    (hbody : d.dataJson = some (J.obj pm)) (e : MicroserviceEvent)
    (rest : List MicroserviceEvent) (he : eventMatches d.headers = e :: rest) :
    handleEvent selfM d q ts rand now = Except.ok
      { routedEvent := e
        ctx :=
          { payload := pm
            microservice := selfM
            processedEvent := e.toTag
            publisherMicroservice := d.appId.getD "unknown"
            eventId := d.messageId.getD (uuidV7String ts rand) }
        audit :=
          { publisherMicroservice := d.appId.getD "unknown"
            receiverMicroservice := selfM
            receivedEvent := e.toTag
            receivedAt := now
            queueName := q
            eventId := d.messageId.getD (uuidV7String ts rand) } } := by
  have hfe := (findEventValues_of_matches d.headers).2 e rest he
  simp [handleEvent, hbody, hfe]

theorem handleEvent_body_err (selfM q : String) (d : DeliveryIn)
    (ts rand now : Nat)
    (hbody : ∀ pm : List (String × J), d.dataJson ≠ some (J.obj pm)) :
    handleEvent selfM d q ts rand now =
      Except.error RabbitMQError.serializationError := by
  unfold handleEvent
  rcases hd : d.dataJson with _ | j
  · rfl
  · rcases j with _ | b | nn | s | a | pm
    · rfl
    · rfl
    · rfl
    · rfl
    · rfl
    · exact absurd hd (hbody pm)

theorem handleEvent_header_err (selfM q : String) (d : DeliveryIn)
    (ts rand now : Nat) (pm : List (String × J))
    (hbody : d.dataJson = some (J.obj pm))
    (he : eventMatches d.headers = []) :
    handleEvent selfM d q ts rand now =
      Except.error RabbitMQError.invalidHeader := by
  have hfe := (findEventValues_of_matches d.headers).1 he
  simp [handleEvent, hbody, hfe]

/-- C8 counterexample: a delivery carrying a present but empty message-id
property produces a handler context whose event_id is the empty string, so
the event_id exposed to handlers is not always non-empty. -/
theorem c8_counterexample :
    (handleEvent "social" c8cDelivery "social_match_commands" 0 0 0).map
      (fun out => out.ctx.eventId) = Except.ok "" ∧
    ("" : String).length = 0 := ⟨rfl, rfl⟩

/-- C8 (amended): the handler context carries publisher_microservice equal
to app-id (default unknown) and event_id equal to message-id, with a fresh
36-character UUID v7 generated when message-id is absent; the audit
payload carries the same correlation data; the event_id is non-empty
whenever message-id is absent, and a present message-id is passed through
unchanged (so it is non-empty exactly when the property is). -/
theorem c8_correlation_metadata (selfM q : String) (d : DeliveryIn)
    (ts rand now : Nat) (out : HandleEventOut)
    (hok : handleEvent selfM d q ts rand now = Except.ok out) :
    out.ctx.publisherMicroservice = d.appId.getD "unknown"
    ∧ out.ctx.eventId = d.messageId.getD (uuidV7String ts rand)
    ∧ out.audit.eventId = out.ctx.eventId
    ∧ out.audit.publisherMicroservice = out.ctx.publisherMicroservice
    ∧ (d.messageId = none → out.ctx.eventId.length = 36 ∧ out.ctx.eventId ≠ "")
    ∧ (∀ s, d.messageId = some s → out.ctx.eventId = s) := by
  rcases hdj : d.dataJson with _ | j
  · rw [handleEvent_body_err selfM q d ts rand now
      (by rw [hdj]; intro pm h; exact Option.noConfusion h)] at hok
    exact absurd hok (by simp)
  · rcases j with _ | b | nn | s | a | pm
    · rw [handleEvent_body_err selfM q d ts rand now
        (by rw [hdj]; intro pm h; simp at h)] at hok
      exact absurd hok (by simp)
    · rw [handleEvent_body_err selfM q d ts rand now
        (by rw [hdj]; intro pm h; simp at h)] at hok
      exact absurd hok (by simp)
    · rw [handleEvent_body_err selfM q d ts rand now
        (by rw [hdj]; intro pm h; simp at h)] at hok
      exact absurd hok (by simp)
    · rw [handleEvent_body_err selfM q d ts rand now
        (by rw [hdj]; intro pm h; simp at h)] at hok
      exact absurd hok (by simp)
    · rw [handleEvent_body_err selfM q d ts rand now
        (by rw [hdj]; intro pm h; simp at h)] at hok
      exact absurd hok (by simp)
    · rcases hm : eventMatches d.headers with _ | ⟨e, rest⟩
      · rw [handleEvent_header_err selfM q d ts rand now pm hdj hm] at hok
        exact absurd hok (by simp)
      · rw [handleEvent_ok_form selfM q d ts rand now pm hdj e rest hm] at hok
        have hq := hok
        simp only [Except.ok.injEq] at hq
        subst hq
        refine ⟨rfl, rfl, rfl, rfl, ?_, ?_⟩
        · intro hmi
          show (d.messageId.getD (uuidV7String ts rand)).length = 36 ∧
            d.messageId.getD (uuidV7String ts rand) ≠ ""
          rw [hmi]
          exact ⟨uuidV7String_length ts rand, uuidV7String_ne_empty ts rand⟩
        · intro s hs
          show d.messageId.getD (uuidV7String ts rand) = s
          rw [hs]
          rfl

theorem c8_correlation_metadata_witness :
    ∃ out, handleEvent "social" c8wDelivery "social_match_commands" 5 7 9 =
        Except.ok out ∧ out.ctx.eventId.length = 36 ∧
      out.ctx.publisherMicroservice = "unknown" := by
  refine ⟨_, rfl, ?_⟩
  have h := c8_correlation_metadata "social" "social_match_commands" c8wDelivery
    5 7 9 _ rfl
  exact ⟨(h.2.2.2.2.1 rfl).1, h.1.trans (by rfl)⟩

/-- The first registration for an absent tag appends its entry. -/
theorem emitterOn_of_none {U : Type} [DecidableEq U] (events : EmitterState U)
    (tag : U) (chan : Nat) (h : alistGet events tag = none) :
    emitterOn events tag chan = events ++ [(tag, chan)] := by
  unfold emitterOn
  rw [if_neg (by rw [alistGet_any, h]; simp)]

/-- A registration for a present tag is silently ignored. -/
theorem emitterOn_of_some {U : Type} [DecidableEq U] (events : EmitterState U)
    (tag : U) (chan c : Nat) (h : alistGet events tag = some c) :
    emitterOn events tag chan = events := by
  unfold emitterOn
  rw [if_pos (by rw [alistGet_any, h]; rfl)]

theorem registerAll_lookup {U : Type} [DecidableEq U] (regs : List (U × Nat))
    (events : EmitterState U) (t : U) :
    alistGet (registerAll events regs) t =
      ((alistGet events t).orElse
        (fun _ => (regs.find? (fun r => r.1 = t)).map Prod.snd)) := by
  induction regs generalizing events with
  | nil =>
    rcases h : alistGet events t with _ | c <;>
      simp [registerAll, Option.orElse, h]
  | cons r regs ih =>
    show alistGet (registerAll (emitterOn events r.1 r.2) regs) t = _
    rw [ih]
    by_cases ht : r.1 = t
    · subst ht
      rcases hget : alistGet events r.1 with _ | c
      · rw [emitterOn_of_none events r.1 r.2 hget, alistGet_append, hget]
        simp [Option.orElse, alistGet, List.find?]
      · rw [emitterOn_of_some events r.1 r.2 c hget, hget]
        simp [Option.orElse, List.find?]
    · have hstep : alistGet (emitterOn events r.1 r.2) t = alistGet events t := by
        unfold emitterOn
        by_cases hany : events.any (fun kv => kv.1 = r.1)
        · rw [if_pos hany]
        · rw [if_neg hany, alistGet_append]
          rcases hg : alistGet events t with _ | c
          · simp [Option.orElse, alistGet, ht]
          · simp [Option.orElse]
      rw [hstep]
      have hfind : List.find? (fun r2 => r2.1 = t) (r :: regs) =
          List.find? (fun r2 => r2.1 = t) regs := by
        simp [List.find?, ht]
      rw [hfind]

/-- C9: the first registration for a tag installs its channel and makes
emit deliver to it; later registrations for the same tag leave the
registry unchanged; across any registration sequence an emitted delivery
goes to the channel of the first registration for its tag. -/
theorem c9_first_handler_wins {U : Type} [DecidableEq U] (events : EmitterState U)
    (tag : U) (chan : Nat) :
    (alistGet events tag = none →
      emitterEmit (emitterOn events tag chan) tag = some chan)
    ∧ (∀ c, alistGet events tag = some c → emitterOn events tag chan = events)
    ∧ (∀ regs : List (U × Nat), ∀ t : U,
        emitterEmit (registerAll [] regs) t =
          (regs.find? (fun r => r.1 = t)).map Prod.snd) := by
  refine ⟨?_, ?_, ?_⟩
  · intro h
    unfold emitterEmit
    rw [emitterOn_of_none events tag chan h, alistGet_append, h]
    simp [Option.orElse, alistGet]
  · intro c h
    exact emitterOn_of_some events tag chan c h
  · intro regs t
    unfold emitterEmit
    rw [registerAll_lookup]
    simp [alistGet, Option.orElse]

theorem c9_first_handler_wins_witness :
    emitterEmit (registerAll ([] : EmitterState StepCommand)
      [(StepCommand.createUser, 1), (StepCommand.createUser, 2),
       (StepCommand.createImage, 3)]) StepCommand.createUser = some 1 := by
  rw [(c9_first_handler_wins ([] : EmitterState StepCommand)
    StepCommand.createUser 1).2.2
    [(StepCommand.createUser, 1), (StepCommand.createUser, 2),
     (StepCommand.createImage, 3)] StepCommand.createUser]
  rfl

end LegendSaga
